import Mathlib

/-!
Verification of the GCP Vertex Anthropic provider adapter
(`gateway/src/inference/providers/gcp_vertex_anthropic.rs`).

The Rust source is shallowly embedded: pure functions become Lean
functions, `Result<T, Error>` becomes `Except Error T`, `&mut` state is
passed and returned explicitly, and `serde_json::Value` is embedded as
the inductive `Json` below (numbers restricted to integers; the adapter
never manipulates numeric payloads).  Machine integers (`u32` status
codes, token counts) are embedded as `Nat`.
-/

/-- Modelled from the spec: `serde_json::Value`, the JSON tree used for tool
inputs, schemas and raw stream payloads.  Numbers are restricted to
integers (floating point is out of scope for this development). -/
inductive Json where
  | null : Json
  | bool : Bool → Json
  | num : Int → Json
  | str : String → Json
  | arr : List Json → Json
  | obj : List (String × Json) → Json
deriving Repr

/-- `Value::is_object`. -/
def Json.isObj : Json → Bool
  | .obj _ => true
  | _ => false

/-- Neutral (TensorZero) role of a request message. -/
inductive Role where
  | user : Role
  | assistant : Role
deriving Repr, DecidableEq

/-- Modelled from the spec: neutral `ToolCall` content block
(`crate::tool::ToolCall`): id, name and a JSON-encoded argument string. -/
structure ToolCall where
  id : String
  name : String
  arguments : String
deriving Repr, DecidableEq

/-- Modelled from the spec: neutral `ToolResult` block
(`crate::tool::ToolResult`). -/
structure ToolResult where
  id : String
  name : String
  result : String
deriving Repr, DecidableEq

/-- Modelled from the spec: neutral content block
(`crate::inference::types::ContentBlock`), a closed set of exactly three
variants. -/
inductive ContentBlock where
  | text : String → ContentBlock
  | toolCall : ToolCall → ContentBlock
  | toolResult : ToolResult → ContentBlock
deriving Repr, DecidableEq

/-- Modelled from the spec: a neutral request message
(`crate::inference::types::RequestMessage`). -/
structure RequestMessage where
  role : Role
  content : List ContentBlock
deriving Repr, DecidableEq

/-- The error taxonomy (`crate::error::Error`), restricted to the variants
this adapter constructs.  `StatusCode` is embedded as `Nat`. -/
inductive Error where
  | apiKeyMissing (provider_name : String)
  | inferenceClient (message : String)
  | invalidRequest (message : String)
  | invalidTool (message : String)
  | anthropicClient (message : String) (status_code : Nat)
  | anthropicServer (message : String)
deriving Repr, DecidableEq

/-- Wire role (`GCPVertexAnthropicRole`): only User and Assistant exist on
the wire. -/
inductive GCPVertexAnthropicRole where
  | user : GCPVertexAnthropicRole
  | assistant : GCPVertexAnthropicRole
deriving Repr, DecidableEq

/-- `impl From<Role> for GCPVertexAnthropicRole`. -/
def GCPVertexAnthropicRole.ofRole : Role → GCPVertexAnthropicRole
  | Role.user => GCPVertexAnthropicRole.user
  | Role.assistant => GCPVertexAnthropicRole.assistant

/-- Wire message content (`GCPVertexAnthropicMessageContent`). -/
inductive GCPVertexAnthropicMessageContent where
  | text (text : String) : GCPVertexAnthropicMessageContent
  | toolResult (tool_use_id : String)
      (content : List GCPVertexAnthropicMessageContent) : GCPVertexAnthropicMessageContent
  | toolUse (id : String) (name : String) (input : Json) : GCPVertexAnthropicMessageContent
deriving Repr

/-- Wire message (`GCPVertexAnthropicMessage`). -/
structure GCPVertexAnthropicMessage where
  role : GCPVertexAnthropicRole
  content : List GCPVertexAnthropicMessageContent
deriving Repr

/-- The synthetic placeholder User message inserted by `prepare_messages`. -/
def listening_message : GCPVertexAnthropicMessage :=
  ⟨GCPVertexAnthropicRole.user, [GCPVertexAnthropicMessageContent.text "[listening]"]⟩

/-- One iteration of the consolidation loop in `prepare_messages`: merge
`message` into the last consolidated message when the roles agree
(popping it, extending its content, pushing it back), else push it. -/
def consolidate_step
    (acc : List GCPVertexAnthropicMessage × Option GCPVertexAnthropicRole)
    (message : GCPVertexAnthropicMessage) :
    Except Error (List GCPVertexAnthropicMessage × Option GCPVertexAnthropicRole) :=
  let this_role := message.role
  match acc.2 with
  | some role =>
    if role = this_role then
      match acc.1.getLast? with
      | Option.none =>
        Except.error (Error.invalidRequest
          "Last message is missing (this should never happen)")
      | some last_message =>
        Except.ok (acc.1.dropLast ++
          [⟨last_message.role, last_message.content ++ message.content⟩], some this_role)
    else
      Except.ok (acc.1 ++ [message], some this_role)
  | Option.none => Except.ok (acc.1 ++ [message], some this_role)

/-- The first structural fix-up of `prepare_messages`: if the consolidated
list is empty or does not start with a User message, insert the
placeholder at the front. -/
def prepend_listening (l : List GCPVertexAnthropicMessage) : List GCPVertexAnthropicMessage :=
  match l.head? with
  | some m => if m.role = GCPVertexAnthropicRole.user then l else listening_message :: l
  | Option.none => listening_message :: l

/-- The second structural fix-up of `prepare_messages`: if the last message
is an Assistant message, append the placeholder. -/
def append_listening (l : List GCPVertexAnthropicMessage) : List GCPVertexAnthropicMessage :=
  match l.getLast? with
  | some last_message =>
    if last_message.role = GCPVertexAnthropicRole.assistant then l ++ [listening_message] else l
  | Option.none => l

/-- `prepare_messages`: consolidate consecutive same-role messages, then
enforce the first-is-User and last-is-not-Assistant wire constraints. -/
def prepare_messages (messages : List GCPVertexAnthropicMessage) :
    Except Error (List GCPVertexAnthropicMessage) := do
  let acc ← messages.foldlM consolidate_step ([], Option.none)
  Except.ok (append_listening (prepend_listening acc.1))

/-- Abbreviation for the wire adjacency constraint: adjacent messages must
have different roles. -/
def RoleAlt (a b : GCPVertexAnthropicMessage) : Prop := a.role ≠ b.role

/-- Invariant of the consolidation loop: the consolidated list alternates
roles, and `last_role` is exactly the role of its last element (or `none`
when the list is still empty). -/
def ConsInv (p : List GCPVertexAnthropicMessage × Option GCPVertexAnthropicRole) : Prop :=
  List.Chain' RoleAlt p.1 ∧
    ((p.2 = Option.none ∧ p.1 = []) ∨
      ∃ l m, p.1 = l ++ [m] ∧ p.2 = some m.role)

/-- Modelled from the spec: decimal digit value of a character, the helper
for the JSON number parser. -/
def digVal? (c : Char) : Option Nat :=
  if c = '0' then some 0
  else if c = '1' then some 1
  else if c = '2' then some 2
  else if c = '3' then some 3
  else if c = '4' then some 4
  else if c = '5' then some 5
  else if c = '6' then some 6
  else if c = '7' then some 7
  else if c = '8' then some 8
  else if c = '9' then some 9
  else Option.none

/-- Modelled from the spec: character of a decimal digit. -/
def digitChar : Nat → Char
  | 0 => '0'
  | 1 => '1'
  | 2 => '2'
  | 3 => '3'
  | 4 => '4'
  | 5 => '5'
  | 6 => '6'
  | 7 => '7'
  | 8 => '8'
  | _ => '9'

/-- Modelled from the spec: decimal representation of a natural number,
most significant digit first (the integer case of serde's compact
serializer). -/
def natChars (n : Nat) : List Char :=
  if _h : n < 10 then [digitChar n]
  else natChars (n / 10) ++ [digitChar (n % 10)]
decreasing_by
  exact Nat.div_lt_self (by omega) (by omega)

/-- Modelled from the spec: decimal representation of an integer. -/
def intChars (i : Int) : List Char :=
  if i < 0 then '-' :: natChars i.natAbs else natChars i.natAbs

/-- Modelled from the spec: JSON string escaping; quotes and backslashes
are escaped with a backslash, other characters pass through. -/
def escChar (c : Char) : List Char :=
  if c = '"' then ['\\', '"']
  else if c = '\\' then ['\\', '\\']
  else [c]

/-- Serialized form of a JSON string (quoted, escaped). -/
def strChars (s : String) : List Char :=
  '"' :: (s.data.flatMap escChar ++ ['"'])

/-- The characters of the `null` keyword. -/
def nullChars : List Char := ['n', 'u', 'l', 'l']

/-- The characters of the `true` keyword. -/
def trueChars : List Char := ['t', 'r', 'u', 'e']

/-- The characters of the `false` keyword. -/
def falseChars : List Char := ['f', 'a', 'l', 's', 'e']

mutual

/-- Modelled from the spec: serde's compact JSON serializer
(`serde_json::to_string`), character-list form. -/
def Json.compactChars : Json → List Char
  | .null => nullChars
  | .bool true => trueChars
  | .bool false => falseChars
  | .num i => intChars i
  | .str s => strChars s
  | .arr [] => ['[', ']']
  | .arr (x :: xs) => '[' :: (Json.compactChars x ++ arrTailChars xs)
  | .obj [] => ['{', '}']
  | .obj (kv :: kvs) => '{' :: (memChars kv ++ objTailChars kvs)

/-- Comma-separated tail of a non-empty compact JSON array, including the
closing bracket. -/
def arrTailChars : List Json → List Char
  | [] => [']']
  | y :: ys => ',' :: (Json.compactChars y ++ arrTailChars ys)

/-- One compact JSON object member: quoted key, colon, value. -/
def memChars : String × Json → List Char
  | (k, v) => strChars k ++ ':' :: Json.compactChars v

/-- Comma-separated tail of a non-empty compact JSON object, including the
closing brace. -/
def objTailChars : List (String × Json) → List Char
  | [] => ['}']
  | kv :: kvs => ',' :: (memChars kv ++ objTailChars kvs)

end

/-- `serde_json::to_string` on a `Value` (also `Value::to_string`): the
compact serialization. -/
def Json.compact (v : Json) : String := String.mk v.compactChars

/-- Consume an expected literal prefix. -/
def stripPfx : List Char → List Char → Option (List Char)
  | [], input => some input
  | _ :: _, [] => Option.none
  | p :: ps, c :: cs => if c = p then stripPfx ps cs else Option.none

/-- Parse the body of a JSON string after the opening quote, undoing
`escChar`; returns the decoded characters and the input after the closing
quote. -/
def parseStrBody : List Char → Option (List Char × List Char)
  | [] => Option.none
  | c :: rest =>
    if c = '"' then some ([], rest)
    else if c = '\\' then
      match rest with
      | [] => Option.none
      | c2 :: rest2 => (parseStrBody rest2).map (fun p => (c2 :: p.1, p.2))
    else (parseStrBody rest).map (fun p => (c :: p.1, p.2))

/-- Greedily consume decimal digits, extending the accumulator. -/
def parseDigits : List Char → Nat → Nat × List Char
  | [], acc => (acc, [])
  | c :: rest, acc =>
    match digVal? c with
    | some d => parseDigits rest (acc * 10 + d)
    | Option.none => (acc, c :: rest)

/-- Parse a natural number (at least one leading digit required). -/
def parseNum : List Char → Option (Nat × List Char)
  | [] => Option.none
  | c :: rest =>
    if (digVal? c).isSome then some (parseDigits (c :: rest) 0) else Option.none

mutual

/-- Modelled from the spec: recursive-descent parser for compact JSON
(`serde_json::from_str` restricted to the whitespace-free compact format).
`fuel` bounds the recursion depth; `Json.parse` supplies enough for any
input. -/
def parseVal : Nat → List Char → Option (Json × List Char)
  | 0, _ => Option.none
  | _ + 1, [] => Option.none
  | f + 1, c :: rest =>
    if c = 'n' then (stripPfx ['u', 'l', 'l'] rest).map (fun r => (Json.null, r))
    else if c = 't' then (stripPfx ['r', 'u', 'e'] rest).map (fun r => (Json.bool true, r))
    else if c = 'f' then (stripPfx ['a', 'l', 's', 'e'] rest).map (fun r => (Json.bool false, r))
    else if c = '"' then (parseStrBody rest).map (fun p => (Json.str (String.mk p.1), p.2))
    else if c = '[' then
      match rest with
      | [] => Option.none
      | d :: rest2 =>
        if d = ']' then some (Json.arr [], rest2)
        else
          (parseVal f (d :: rest2)).bind (fun p =>
            (parseArrTail f p.2).map (fun q => (Json.arr (p.1 :: q.1), q.2)))
    else if c = '{' then
      match rest with
      | [] => Option.none
      | d :: rest2 =>
        if d = '}' then some (Json.obj [], rest2)
        else
          (parseMember f (d :: rest2)).bind (fun p =>
            (parseObjTail f p.2).map (fun q => (Json.obj (p.1 :: q.1), q.2)))
    else if c = '-' then
      (parseNum rest).map (fun p => (Json.num (-(p.1 : Int)), p.2))
    else (parseNum (c :: rest)).map (fun p => (Json.num (p.1 : Int), p.2))

/-- Parse the rest of a non-empty JSON array: a closing bracket, or a comma
followed by a value and the array's remaining tail. -/
def parseArrTail : Nat → List Char → Option (List Json × List Char)
  | 0, _ => Option.none
  | _ + 1, [] => Option.none
  | f + 1, c :: rest =>
    if c = ']' then some ([], rest)
    else if c = ',' then
      (parseVal f rest).bind (fun p =>
        (parseArrTail f p.2).map (fun q => (p.1 :: q.1, q.2)))
    else Option.none

/-- Parse one JSON object member: quoted key, colon, value. -/
def parseMember : Nat → List Char → Option ((String × Json) × List Char)
  | 0, _ => Option.none
  | _ + 1, [] => Option.none
  | f + 1, c :: rest =>
    if c = '"' then
      (parseStrBody rest).bind (fun p =>
        match p.2 with
        | [] => Option.none
        | c2 :: r2 =>
          if c2 = ':' then
            (parseVal f r2).map (fun q => ((String.mk p.1, q.1), q.2))
          else Option.none)
    else Option.none

/-- Parse the rest of a non-empty JSON object: a closing brace, or a comma
followed by a member and the object's remaining tail. -/
def parseObjTail : Nat → List Char → Option (List (String × Json) × List Char)
  | 0, _ => Option.none
  | _ + 1, [] => Option.none
  | f + 1, c :: rest =>
    if c = '}' then some ([], rest)
    else if c = ',' then
      (parseMember f rest).bind (fun p =>
        (parseObjTail f p.2).map (fun q => (p.1 :: q.1, q.2)))
    else Option.none

end

/-- Modelled from the spec: `serde_json::from_str::<Value>`: parse a
complete JSON document, rejecting trailing input. -/
def Json.parse (s : String) : Option Json :=
  match parseVal (s.data.length + 1) s.data with
  | some (v, []) => some v
  | _ => Option.none

/-- True when the input does not start with a decimal digit, so a greedy
number parse that stops here is correct. -/
def noLeadDigit : List Char → Bool
  | [] => true
  | c :: _ => (digVal? c).isNone

/-- First characters that can start a compact JSON value. -/
def headKind (c : Char) : Prop :=
  c = 'n' ∨ c = 't' ∨ c = 'f' ∨ c = '"' ∨ c = '[' ∨ c = '{' ∨ c = '-' ∨
    (digVal? c).isSome = true

/-- Modelled from the spec: neutral tool choice (`crate::tool::ToolChoice`):
auto, required, a specific tool, or explicitly no tools. -/
inductive ToolChoice where
  | auto : ToolChoice
  | required : ToolChoice
  | specific : String → ToolChoice
  | none : ToolChoice
deriving Repr, DecidableEq

/-- Modelled from the spec: one neutral tool (`crate::tool::ToolConfig`),
exposing its name, description and JSON-schema parameters. -/
structure ToolConfig where
  name : String
  description : String
  parameters : Json
deriving Repr

/-- Modelled from the spec: the neutral tool configuration of a request:
the available tools and the tool-choice setting. -/
structure ToolCallConfig where
  tools_available : List ToolConfig
  tool_choice : ToolChoice
deriving Repr

/-- Modelled from the spec: the neutral inference request
(`crate::inference::types::ModelInferenceRequest`), restricted to the
fields this adapter reads.  The `f32` temperature is embedded as an
opaque `Option Int` token (no arithmetic is performed on it). -/
structure ModelInferenceRequest where
  messages : List RequestMessage
  system : Option String
  tool_config : Option ToolCallConfig
  temperature : Option Int
  max_tokens : Option Nat
  seed : Option Nat
  stream : Bool
deriving Repr

/-- Wire tool choice (`GCPVertexAnthropicToolChoice`). -/
inductive GCPVertexAnthropicToolChoice where
  | auto : GCPVertexAnthropicToolChoice
  | any : GCPVertexAnthropicToolChoice
  | tool (name : String) : GCPVertexAnthropicToolChoice
deriving Repr, DecidableEq

/-- `impl TryFrom<&ToolChoice> for GCPVertexAnthropicToolChoice`:
`ToolChoice::None` has no wire mapping and fails. -/
def GCPVertexAnthropicToolChoice.try_from :
    ToolChoice → Except Error GCPVertexAnthropicToolChoice
  | ToolChoice.auto => Except.ok GCPVertexAnthropicToolChoice.auto
  | ToolChoice.required => Except.ok GCPVertexAnthropicToolChoice.any
  | ToolChoice.specific name => Except.ok (GCPVertexAnthropicToolChoice.tool name)
  | ToolChoice.none => Except.error (Error.invalidTool
      "Tool choice is None. Anthropic does not support tool choice None.")

/-- Wire tool descriptor (`GCPVertexAnthropicTool`). -/
structure GCPVertexAnthropicTool where
  name : String
  description : Option String
  input_schema : Json
deriving Repr

/-- `impl From<&ToolConfig> for GCPVertexAnthropicTool`. -/
def GCPVertexAnthropicTool.fromConfig (value : ToolConfig) : GCPVertexAnthropicTool :=
  ⟨value.name, some value.description, value.parameters⟩

/-- `impl TryFrom<&ContentBlock> for GCPVertexAnthropicMessageContent`:
tool-call arguments are parsed as JSON and must be an object.  The serde
error text interpolated into the message is abstracted away. -/
def GCPVertexAnthropicMessageContent.try_from :
    ContentBlock → Except Error GCPVertexAnthropicMessageContent
  | ContentBlock.text t => Except.ok (GCPVertexAnthropicMessageContent.text t)
  | ContentBlock.toolCall tool_call =>
    match Json.parse tool_call.arguments with
    | Option.none => Except.error (Error.anthropicClient
        "Error parsing tool call arguments as JSON Value" 400)
    | some input =>
      if input.isObj then
        Except.ok (GCPVertexAnthropicMessageContent.toolUse tool_call.id tool_call.name input)
      else
        Except.error (Error.anthropicClient "Tool call arguments must be a JSON object" 400)
  | ContentBlock.toolResult tool_result =>
    Except.ok (GCPVertexAnthropicMessageContent.toolResult tool_result.id
      [GCPVertexAnthropicMessageContent.text tool_result.result])

/-- `impl TryFrom<&RequestMessage> for GCPVertexAnthropicMessage`. -/
def GCPVertexAnthropicMessage.try_from (inference_message : RequestMessage) :
    Except Error GCPVertexAnthropicMessage := do
  let content ← inference_message.content.mapM GCPVertexAnthropicMessageContent.try_from
  Except.ok ⟨GCPVertexAnthropicRole.ofRole inference_message.role, content⟩

/-- The fixed wire API version string. -/
def ANTHROPIC_API_VERSION : String := "vertex-2023-10-16"

/-- The wire request body (`GCPVertexAnthropicRequestBody`).  Fields whose
serialization is skipped when `None` are `Option`s. -/
structure GCPVertexAnthropicRequestBody where
  anthropic_version : String
  messages : List GCPVertexAnthropicMessage
  max_tokens : Nat
  stream : Option Bool
  system : Option String
  temperature : Option Int
  tool_choice : Option GCPVertexAnthropicToolChoice
  tools : Option (List GCPVertexAnthropicTool)
deriving Repr

/-- `GCPVertexAnthropicRequestBody::new`: validate, map messages,
normalize, and build the wire body.  Note that the tool-choice conversion
error is discarded by `.ok()`: a failing conversion leaves `tool_choice`
as `None` instead of failing the construction. -/
def GCPVertexAnthropicRequestBody.new (request : ModelInferenceRequest) :
    Except Error GCPVertexAnthropicRequestBody :=
  if request.messages.isEmpty then
    Except.error (Error.invalidRequest "Anthropic requires at least one message")
  else do
    let system := request.system
    let request_messages ← request.messages.mapM GCPVertexAnthropicMessage.try_from
    let messages ← prepare_messages request_messages
    let tools := request.tool_config.map
      (fun c => c.tools_available.map GCPVertexAnthropicTool.fromConfig)
    let tool_choice :=
      ((Option.filter (fun t => !t.isEmpty) tools).bind
        (fun _ => request.tool_config)).bind
        (fun c => (GCPVertexAnthropicToolChoice.try_from c.tool_choice).toOption)
    Except.ok
      ⟨ANTHROPIC_API_VERSION, messages, request.max_tokens.getD 4096,
        some request.stream, system, request.temperature, tool_choice, tools⟩

/-- Token usage (`GCPVertexAnthropic` / `Usage`). -/
structure Usage where
  input_tokens : Nat
  output_tokens : Nat
deriving Repr, DecidableEq

/-- Wire response content block (`GCPVertexAnthropicContentBlock`). -/
inductive GCPVertexAnthropicContentBlock where
  | text (text : String) : GCPVertexAnthropicContentBlock
  | toolUse (id : String) (name : String) (input : Json) : GCPVertexAnthropicContentBlock
deriving Repr

/-- `impl TryFrom<GCPVertexAnthropicContentBlock> for ContentBlock`: a wire
ToolUse block's JSON input is re-serialized to the compact string form. -/
def ContentBlock.try_from :
    GCPVertexAnthropicContentBlock → Except Error ContentBlock
  | GCPVertexAnthropicContentBlock.text t => Except.ok (ContentBlock.text t)
  | GCPVertexAnthropicContentBlock.toolUse id name input =>
    Except.ok (ContentBlock.toolCall ⟨id, name, Json.compact input⟩)

/-- Provider error body (`GCPVertexAnthropicErrorBody`). -/
structure GCPVertexAnthropicErrorBody where
  type : String
  message : String
deriving Repr, DecidableEq

/-- The neutral response (`ProviderInferenceResponse`), restricted to the
fields built here; latency is an abstract `Nat`. -/
structure ProviderInferenceResponse where
  content : List ContentBlock
  raw_response : String
  usage : Usage
  latency : Nat
deriving Repr

/-- `handle_anthropic_error`: statuses 401, 400, 413 and 429 become
caller-attributable client errors carrying the message and status; every
other status becomes a provider-attributable server error. -/
def handle_anthropic_error (response_code : Nat)
    (response_body : GCPVertexAnthropicErrorBody) :
    Except Error ProviderInferenceResponse :=
  if response_code = 401 ∨ response_code = 400 ∨ response_code = 413 ∨
      response_code = 429 then
    Except.error (Error.anthropicClient response_body.message response_code)
  else
    Except.error (Error.anthropicServer response_body.message)

/-- `Value::get` on an object (serde's map lookup). -/
def Json.get? : Json → String → Option Json
  | Json.obj fields, k => (fields.find? (fun kv => kv.1 = k)).map (fun kv => kv.2)
  | _, _ => Option.none

/-- `Value::as_u64`: an integer value that is non-negative. -/
def Json.as_u64 : Json → Option Nat
  | Json.num i => if 0 ≤ i then some i.toNat else Option.none
  | _ => Option.none

/-- String field of a JSON object. -/
def Json.getStr? (j : Json) (k : String) : Option String :=
  match j.get? k with
  | some (Json.str s) => some s
  | _ => Option.none

/-- `u32` field of a JSON object (range-checked). -/
def Json.getU32? (j : Json) (k : String) : Option Nat :=
  match j.get? k with
  | some (Json.num i) => if 0 ≤ i ∧ i < 4294967296 then some i.toNat else Option.none
  | _ => Option.none

/-- `parse_usage_info`: missing or non-numeric token counts default to 0.
(The source builds a `GCPVertexAnthropic` which converts 1:1 into
`Usage`; the two structures have identical fields.) -/
def parse_usage_info (usage_info : Json) : Usage :=
  ⟨((usage_info.get? "input_tokens").bind Json.as_u64).getD 0,
   ((usage_info.get? "output_tokens").bind Json.as_u64).getD 0⟩

/-- Wire stream content block (`GCPVertexAnthropicMessageBlock`).  The
`inputJsonDelta` payload is the source's `partial_json` string. -/
inductive GCPVertexAnthropicMessageBlock where
  | text (text : String) : GCPVertexAnthropicMessageBlock
  | textDelta (text : String) : GCPVertexAnthropicMessageBlock
  | toolUse (id : String) (name : String) (input : Json) : GCPVertexAnthropicMessageBlock
  | inputJsonDelta (json_delta : String) : GCPVertexAnthropicMessageBlock
deriving Repr

/-- Wire stream event payload (`GCPVertexAnthropicStreamMessage`), a closed
tag-dispatched union. -/
inductive GCPVertexAnthropicStreamMessage where
  | contentBlockDelta (delta : GCPVertexAnthropicMessageBlock) (index : Nat) :
      GCPVertexAnthropicStreamMessage
  | contentBlockStart (content_block : GCPVertexAnthropicMessageBlock) (index : Nat) :
      GCPVertexAnthropicStreamMessage
  | contentBlockStop (index : Nat) : GCPVertexAnthropicStreamMessage
  | error (error : Json) : GCPVertexAnthropicStreamMessage
  | messageDelta (delta : Json) (usage : Json) : GCPVertexAnthropicStreamMessage
  | messageStart (message : Json) : GCPVertexAnthropicStreamMessage
  | messageStop : GCPVertexAnthropicStreamMessage
  | ping : GCPVertexAnthropicStreamMessage
deriving Repr

/-- Neutral text chunk (`crate::inference::types::TextChunk`). -/
structure TextChunk where
  text : String
  id : String
deriving Repr, DecidableEq

/-- Modelled from the spec: neutral tool-call chunk
(`crate::tool::ToolCallChunk`); id and raw name must always be
populated. -/
structure ToolCallChunk where
  id : String
  raw_name : String
  raw_arguments : String
deriving Repr, DecidableEq

/-- Neutral streaming content chunk
(`crate::inference::types::ContentBlockChunk`). -/
inductive ContentBlockChunk where
  | text (chunk : TextChunk) : ContentBlockChunk
  | toolCall (chunk : ToolCallChunk) : ContentBlockChunk
deriving Repr, DecidableEq

/-- Modelled from the spec: one neutral streaming response chunk
(`ProviderInferenceResponseChunk`): stream-scoped id, content deltas,
optional usage, the exact textual form of the originating event, and the
elapsed latency (as an abstract `Nat`). -/
structure ProviderInferenceResponseChunk where
  inference_id : Nat
  content : List ContentBlockChunk
  usage : Option Usage
  raw_response : String
  latency : Nat
deriving Repr

/-- serde serialization of a stream content block (tag first, snake_case
variant names). -/
def messageBlockToJson : GCPVertexAnthropicMessageBlock → Json
  | GCPVertexAnthropicMessageBlock.text t =>
    Json.obj [("type", Json.str "text"), ("text", Json.str t)]
  | GCPVertexAnthropicMessageBlock.textDelta t =>
    Json.obj [("type", Json.str "text_delta"), ("text", Json.str t)]
  | GCPVertexAnthropicMessageBlock.toolUse id name input =>
    Json.obj [("type", Json.str "tool_use"), ("id", Json.str id),
      ("name", Json.str name), ("input", input)]
  | GCPVertexAnthropicMessageBlock.inputJsonDelta pj =>
    Json.obj [("type", Json.str "input_json_delta"), ("partial_json", Json.str pj)]

/-- serde serialization of a stream event payload; used to reconstruct the
`raw_message` attached to every chunk. -/
def streamMessageToJson : GCPVertexAnthropicStreamMessage → Json
  | GCPVertexAnthropicStreamMessage.contentBlockDelta delta index =>
    Json.obj [("type", Json.str "content_block_delta"),
      ("delta", messageBlockToJson delta), ("index", Json.num index)]
  | GCPVertexAnthropicStreamMessage.contentBlockStart content_block index =>
    Json.obj [("type", Json.str "content_block_start"),
      ("content_block", messageBlockToJson content_block), ("index", Json.num index)]
  | GCPVertexAnthropicStreamMessage.contentBlockStop index =>
    Json.obj [("type", Json.str "content_block_stop"), ("index", Json.num index)]
  | GCPVertexAnthropicStreamMessage.error e =>
    Json.obj [("type", Json.str "error"), ("error", e)]
  | GCPVertexAnthropicStreamMessage.messageDelta delta usage =>
    Json.obj [("type", Json.str "message_delta"), ("delta", delta), ("usage", usage)]
  | GCPVertexAnthropicStreamMessage.messageStart message =>
    Json.obj [("type", Json.str "message_start"), ("message", message)]
  | GCPVertexAnthropicStreamMessage.messageStop =>
    Json.obj [("type", Json.str "message_stop")]
  | GCPVertexAnthropicStreamMessage.ping =>
    Json.obj [("type", Json.str "ping")]

/-- `anthropic_to_tensorzero_stream_message`: convert one parsed stream
event to at most one neutral chunk.  The two `&mut Option<String>` slots
are passed and returned explicitly; only a ToolUse `ContentBlockStart`
writes them. -/
def anthropic_to_tensorzero_stream_message
    (message : GCPVertexAnthropicStreamMessage) (inference_id : Nat)
    (message_latency : Nat) (current_tool_id : Option String)
    (current_tool_name : Option String) :
    Except Error
      (Option ProviderInferenceResponseChunk × Option String × Option String) :=
  let raw_message := Json.compact (streamMessageToJson message)
  match message with
  | GCPVertexAnthropicStreamMessage.contentBlockDelta delta index =>
    match delta with
    | GCPVertexAnthropicMessageBlock.textDelta t =>
      Except.ok (some ⟨inference_id,
          [ContentBlockChunk.text ⟨t, toString index⟩],
          Option.none, raw_message, message_latency⟩,
        current_tool_id, current_tool_name)
    | GCPVertexAnthropicMessageBlock.inputJsonDelta pj =>
      match current_tool_name with
      | Option.none => Except.error (Error.anthropicServer
          "Got InputJsonDelta chunk from Anthropic without current tool name being set by a ToolUse")
      | some tname =>
        match current_tool_id with
        | Option.none => Except.error (Error.anthropicServer
            "Got InputJsonDelta chunk from Anthropic without current tool id being set by a ToolUse")
        | some tid =>
          Except.ok (some ⟨inference_id,
              [ContentBlockChunk.toolCall ⟨tid, tname, pj⟩],
              Option.none, raw_message, message_latency⟩,
            current_tool_id, current_tool_name)
    | _ => Except.error (Error.anthropicServer
        "Unsupported content block type for ContentBlockDelta")
  | GCPVertexAnthropicStreamMessage.contentBlockStart content_block index =>
    match content_block with
    | GCPVertexAnthropicMessageBlock.text t =>
      Except.ok (some ⟨inference_id,
          [ContentBlockChunk.text ⟨t, toString index⟩],
          Option.none, raw_message, message_latency⟩,
        current_tool_id, current_tool_name)
    | GCPVertexAnthropicMessageBlock.toolUse id name _ =>
      Except.ok (some ⟨inference_id,
          [ContentBlockChunk.toolCall ⟨id, name, ""⟩],
          Option.none, raw_message, message_latency⟩,
        some id, some name)
    | _ => Except.error (Error.anthropicServer
        "Unsupported content block type for ContentBlockStart")
  | GCPVertexAnthropicStreamMessage.contentBlockStop _ =>
    Except.ok (Option.none, current_tool_id, current_tool_name)
  | GCPVertexAnthropicStreamMessage.error e =>
    Except.error (Error.anthropicServer (Json.compact e))
  | GCPVertexAnthropicStreamMessage.messageDelta _ usage =>
    Except.ok (some ⟨inference_id, [], some (parse_usage_info usage),
        raw_message, message_latency⟩,
      current_tool_id, current_tool_name)
  | GCPVertexAnthropicStreamMessage.messageStart message =>
    match message.get? "usage" with
    | some usage_info =>
      Except.ok (some ⟨inference_id, [], some (parse_usage_info usage_info),
          raw_message, message_latency⟩,
        current_tool_id, current_tool_name)
    | Option.none => Except.ok (Option.none, current_tool_id, current_tool_name)
  | GCPVertexAnthropicStreamMessage.messageStop =>
    Except.ok (Option.none, current_tool_id, current_tool_name)
  | GCPVertexAnthropicStreamMessage.ping =>
    Except.ok (Option.none, current_tool_id, current_tool_name)

/-- serde deserialization of a stream content block (tag dispatch on
`type`; unknown fields are ignored, missing ones fail). -/
def messageBlockFromJson (j : Json) : Option GCPVertexAnthropicMessageBlock :=
  match j.getStr? "type" with
  | some "text" => (j.getStr? "text").map GCPVertexAnthropicMessageBlock.text
  | some "text_delta" => (j.getStr? "text").map GCPVertexAnthropicMessageBlock.textDelta
  | some "tool_use" =>
    match j.getStr? "id", j.getStr? "name", j.get? "input" with
    | some id, some name, some input =>
      some (GCPVertexAnthropicMessageBlock.toolUse id name input)
    | _, _, _ => Option.none
  | some "input_json_delta" =>
    (j.getStr? "partial_json").map GCPVertexAnthropicMessageBlock.inputJsonDelta
  | _ => Option.none

/-- serde deserialization of a stream event payload (tag dispatch on
`type`). -/
def streamMessageFromJson (j : Json) : Option GCPVertexAnthropicStreamMessage :=
  match j.getStr? "type" with
  | some "content_block_delta" =>
    match (j.get? "delta").bind messageBlockFromJson, j.getU32? "index" with
    | some delta, some index =>
      some (GCPVertexAnthropicStreamMessage.contentBlockDelta delta index)
    | _, _ => Option.none
  | some "content_block_start" =>
    match (j.get? "content_block").bind messageBlockFromJson, j.getU32? "index" with
    | some cb, some index =>
      some (GCPVertexAnthropicStreamMessage.contentBlockStart cb index)
    | _, _ => Option.none
  | some "content_block_stop" =>
    (j.getU32? "index").map GCPVertexAnthropicStreamMessage.contentBlockStop
  | some "error" => (j.get? "error").map GCPVertexAnthropicStreamMessage.error
  | some "message_delta" =>
    match j.get? "delta", j.get? "usage" with
    | some d, some u => some (GCPVertexAnthropicStreamMessage.messageDelta d u)
    | _, _ => Option.none
  | some "message_start" =>
    (j.get? "message").map GCPVertexAnthropicStreamMessage.messageStart
  | some "message_stop" => some GCPVertexAnthropicStreamMessage.messageStop
  | some "ping" => some GCPVertexAnthropicStreamMessage.ping
  | _ => Option.none

/-- `serde_json::from_str::<GCPVertexAnthropicStreamMessage>` on an event's
data, with the source's error message (the serde error text interpolated
before the data is abstracted away). -/
def parseStreamData (data : String) : Except Error GCPVertexAnthropicStreamMessage :=
  match (Json.parse data).bind streamMessageFromJson with
  | some msg => Except.ok msg
  | Option.none =>
    Except.error (Error.anthropicServer ("Error parsing message, Data: " ++ data))

/-- One transport-level event from the event source
(`reqwest_eventsource::Event`): the channel-open marker or a message with
its data text. -/
inductive Event where
  | opened : Event
  | message (data : String) : Event
deriving Repr, DecidableEq

/-- The `if let Ok(GCPVertexAnthropicStreamMessage::MessageStop) = data`
test that breaks the read loop. -/
def isStopResult : Except Error GCPVertexAnthropicStreamMessage → Bool
  | Except.ok GCPVertexAnthropicStreamMessage.messageStop => true
  | _ => false

/-- `stream_anthropic`: the event-consuming loop, with the transport's
event sequence embedded as a list (a transport error is an `Except.error`
carrying its message).  A transport error yields an error item and
continues; `Open` is skipped; a message is parsed, a successfully parsed
`MessageStop` breaks the loop (later events are never read), and any
other parse result is converted via `and_then`, yielding nothing, a
chunk, or an error item. -/
def stream_anthropic (inference_id : Nat) (latency : Nat) :
    Option String → Option String → List (Except String Event) →
      List (Except Error ProviderInferenceResponseChunk)
  | _, _, [] => []
  | tid, tname, ev :: rest =>
    match ev with
    | Except.error e =>
      Except.error (Error.anthropicServer e) ::
        stream_anthropic inference_id latency tid tname rest
    | Except.ok Event.opened => stream_anthropic inference_id latency tid tname rest
    | Except.ok (Event.message data) =>
      let parsed := parseStreamData data
      if isStopResult parsed then []
      else
        match parsed.bind (fun msg =>
            anthropic_to_tensorzero_stream_message msg inference_id latency tid tname) with
        | Except.ok (Option.none, tid2, tname2) =>
          stream_anthropic inference_id latency tid2 tname2 rest
        | Except.ok (some chunk, tid2, tname2) =>
          Except.ok chunk :: stream_anthropic inference_id latency tid2 tname2 rest
        | Except.error e =>
          Except.error e :: stream_anthropic inference_id latency tid tname rest

/-- The stream-consumption half of `infer_stream`: pull the first item of
the decoded stream; an empty stream is a hard server error, an error item
propagates, and a chunk is returned with the remaining sequence. -/
def infer_stream (inference_id : Nat) (latency : Nat)
    (events : List (Except String Event)) :
    Except Error
      (ProviderInferenceResponseChunk × List (Except Error ProviderInferenceResponseChunk)) :=
  match stream_anthropic inference_id latency Option.none Option.none events with
  | [] => Except.error (Error.anthropicServer "Stream ended before first chunk")
  | Except.ok chunk :: rest => Except.ok (chunk, rest)
  | Except.error e :: _ => Except.error e

/-- A request whose tool choice is the neutral "explicitly no tools" with a
non-empty tool set. -/
def toolChoiceNoneRequest : ModelInferenceRequest :=
  ⟨[⟨Role.user, [ContentBlock.text "test_user"]⟩], Option.none,
    some ⟨[⟨"get_temperature", "Get the current temperature", Json.obj []⟩],
      ToolChoice.none⟩,
    Option.none, Option.none, Option.none, false⟩

/-- A request with a tool configuration whose tool list is empty. -/
def emptyToolsRequest : ModelInferenceRequest :=
  ⟨[⟨Role.user, [ContentBlock.text "test_user"]⟩], Option.none,
    some ⟨[], ToolChoice.specific "get_temperature"⟩,
    Option.none, Option.none, Option.none, false⟩

example : prepare_messages [] = Except.ok [listening_message] := by rfl

example :
    prepare_messages
      [⟨GCPVertexAnthropicRole.user, [GCPVertexAnthropicMessageContent.text "Hello"]⟩,
       ⟨GCPVertexAnthropicRole.user, [GCPVertexAnthropicMessageContent.text "How are you?"]⟩,
       ⟨GCPVertexAnthropicRole.assistant, [GCPVertexAnthropicMessageContent.text "Hi"]⟩] =
    Except.ok
      [⟨GCPVertexAnthropicRole.user,
         [GCPVertexAnthropicMessageContent.text "Hello",
          GCPVertexAnthropicMessageContent.text "How are you?"]⟩,
       ⟨GCPVertexAnthropicRole.assistant, [GCPVertexAnthropicMessageContent.text "Hi"]⟩,
       listening_message] := by rfl

theorem consolidate_step_inv
    (p : List GCPVertexAnthropicMessage × Option GCPVertexAnthropicRole)
    (message : GCPVertexAnthropicMessage) (h : ConsInv p) :
    ∃ q, consolidate_step p message = Except.ok q ∧ ConsInv q := by
  obtain ⟨hchain, hrest⟩ := h
  rcases hrest with ⟨hnone, hnil⟩ | ⟨l, m, hdecomp, hsome⟩
  · refine ⟨(p.1 ++ [message], some message.role), ?_, ?_⟩
    · simp [consolidate_step, hnone]
    · constructor
      · simp [hnil, List.chain'_singleton]
      · exact Or.inr ⟨[], message, by simp [hnil], rfl⟩
  · by_cases hr : m.role = message.role
    · refine ⟨(p.1.dropLast ++
          [⟨m.role, m.content ++ message.content⟩], some message.role), ?_, ?_⟩
      · simp only [consolidate_step, hsome, hr]
        simp [hdecomp, hr, List.getLast?_concat, List.dropLast_concat]
      · rw [hdecomp] at hchain
        constructor
        · simp only [hdecomp, List.dropLast_concat]
          rw [List.chain'_append] at hchain ⊢
          refine ⟨hchain.1, List.chain'_singleton _, ?_⟩
          intro x hx y hy
          simp only [List.head?_cons, Option.mem_def, Option.some.injEq] at hy
          subst hy
          have := hchain.2.2 x hx m (by simp)
          simpa [RoleAlt] using this
        · refine Or.inr ⟨p.1.dropLast, ⟨m.role, m.content ++ message.content⟩, rfl, ?_⟩
          simp [hr]
    · refine ⟨(p.1 ++ [message], some message.role), ?_, ?_⟩
      · simp only [consolidate_step, hsome]
        simp [hr]
      · constructor
        · rw [List.chain'_append]
          refine ⟨hchain, List.chain'_singleton _, ?_⟩
          intro x hx y hy
          simp only [hdecomp, List.getLast?_concat, Option.mem_def, Option.some.injEq] at hx
          simp only [List.head?_cons, Option.mem_def, Option.some.injEq] at hy
          subst hx; subst hy
          simpa [RoleAlt] using hr
        · exact Or.inr ⟨p.1, message, rfl, rfl⟩

theorem consolidate_foldlM_inv (messages : List GCPVertexAnthropicMessage) :
    ∀ p, ConsInv p →
      ∃ q, messages.foldlM consolidate_step p = Except.ok q ∧ ConsInv q := by
  induction messages with
  | nil => intro p hp; exact ⟨p, rfl, hp⟩
  | cons m rest ih =>
    intro p hp
    obtain ⟨q, hq, hqinv⟩ := consolidate_step_inv p m hp
    obtain ⟨r, hr, hrinv⟩ := ih q hqinv
    refine ⟨r, ?_, hrinv⟩
    simp only [List.foldlM_cons, hq]
    exact hr

theorem prepend_listening_chain (l : List GCPVertexAnthropicMessage)
    (h : List.Chain' RoleAlt l) : List.Chain' RoleAlt (prepend_listening l) := by
  unfold prepend_listening
  cases hl : l.head? with
  | none =>
    have : l = [] := List.head?_eq_none_iff.mp hl
    simp [this, List.chain'_singleton]
  | some m =>
    by_cases hm : m.role = GCPVertexAnthropicRole.user
    · simpa [hm] using h
    · simp only [hm, if_false]
      rw [List.chain'_cons']
      refine ⟨?_, h⟩
      intro y hy
      rw [hl] at hy
      simp only [Option.mem_def, Option.some.injEq] at hy
      subst hy
      simp only [RoleAlt, listening_message]
      intro hcontra
      exact hm hcontra.symm

theorem prepend_listening_head (l : List GCPVertexAnthropicMessage) :
    (prepend_listening l).head?.map (fun m => m.role) = some GCPVertexAnthropicRole.user := by
  unfold prepend_listening
  cases hl : l.head? with
  | none => simp [listening_message]
  | some m =>
    by_cases hm : m.role = GCPVertexAnthropicRole.user
    · simp [hm, hl]
    · simp [hm, listening_message]

theorem prepend_listening_ne_nil (l : List GCPVertexAnthropicMessage) :
    prepend_listening l ≠ [] := by
  unfold prepend_listening
  cases hl : l.head? with
  | none => simp
  | some m =>
    by_cases hm : m.role = GCPVertexAnthropicRole.user
    · simp only [hm, if_true]
      intro hcontra
      rw [hcontra] at hl
      simp at hl
    · simp [hm]

theorem append_listening_chain (l : List GCPVertexAnthropicMessage)
    (h : List.Chain' RoleAlt l) : List.Chain' RoleAlt (append_listening l) := by
  unfold append_listening
  cases hl : l.getLast? with
  | none => exact h
  | some m =>
    by_cases hm : m.role = GCPVertexAnthropicRole.assistant
    · simp only [hm, if_true]
      rw [List.chain'_append]
      refine ⟨h, List.chain'_singleton _, ?_⟩
      intro x hx y hy
      rw [hl] at hx
      simp only [List.head?_cons, Option.mem_def, Option.some.injEq] at hx hy
      subst hx; subst hy
      simp [RoleAlt, listening_message, hm]
    · simp [hm, h]

theorem append_listening_last (l : List GCPVertexAnthropicMessage) :
    ∀ m, (append_listening l).getLast? = some m → m.role ≠ GCPVertexAnthropicRole.assistant := by
  unfold append_listening
  cases hl : l.getLast? with
  | none =>
    intro m hm
    rw [hl] at hm
    exact absurd hm (by simp)
  | some m0 =>
    by_cases hm0 : m0.role = GCPVertexAnthropicRole.assistant
    · simp only [hm0, if_true]
      intro m hm
      rw [List.getLast?_concat] at hm
      obtain rfl : listening_message = m := by simpa using hm
      simp [listening_message]
    · simp only [hm0, if_false]
      intro m hm
      rw [hl] at hm
      obtain rfl : m0 = m := by simpa using hm
      exact hm0

theorem append_listening_head (l : List GCPVertexAnthropicMessage) (hne : l ≠ []) :
    (append_listening l).head? = l.head? := by
  unfold append_listening
  cases hl : l.getLast? with
  | none => rfl
  | some m =>
    by_cases hm : m.role = GCPVertexAnthropicRole.assistant
    · simp only [hm, if_true]
      cases l with
      | nil => exact absurd rfl hne
      | cons a rest => simp
    · simp [hm]

/-- C10: the success branch of `prepare_messages` is total: the internal
"Last message is missing" error branch is unreachable, because a same-role
merge only occurs when a previous message was already pushed onto the
consolidated list. -/
theorem prepare_messages_total (messages : List GCPVertexAnthropicMessage) :
    (prepare_messages messages).isOk = true := by
  obtain ⟨q, hq, _⟩ :=
    consolidate_foldlM_inv messages ([], Option.none)
      ⟨List.chain'_nil, Or.inl ⟨rfl, rfl⟩⟩
  simp [prepare_messages, hq, Except.isOk, Except.toBool, Bind.bind, Except.bind]

/-- C1: every successful output of `prepare_messages` satisfies the three
wire structural constraints: no two consecutive messages share a role, the
first message has role User, and the last message does not have role
Assistant. -/
theorem prepare_messages_invariants (messages out : List GCPVertexAnthropicMessage)
    (h : prepare_messages messages = Except.ok out) :
    List.Chain' RoleAlt out ∧
      out.head?.map (fun m => m.role) = some GCPVertexAnthropicRole.user ∧
      ∀ m, out.getLast? = some m → m.role ≠ GCPVertexAnthropicRole.assistant := by
  obtain ⟨q, hq, hqinv⟩ :=
    consolidate_foldlM_inv messages ([], Option.none)
      ⟨List.chain'_nil, Or.inl ⟨rfl, rfl⟩⟩
  rw [prepare_messages] at h
  rw [hq] at h
  simp only [Bind.bind, Except.bind, Except.ok.injEq] at h
  subst h
  refine ⟨?_, ?_, ?_⟩
  · exact append_listening_chain _ (prepend_listening_chain _ hqinv.1)
  · rw [append_listening_head _ (prepend_listening_ne_nil _)]
    exact prepend_listening_head _
  · exact append_listening_last _

/-- Witness for C1 at a concrete input: normalizing the empty list yields
the single placeholder message, which satisfies all three constraints. -/
theorem prepare_messages_invariants_witness :
    List.Chain' RoleAlt [listening_message] ∧
      [listening_message].head?.map (fun m => m.role) = some GCPVertexAnthropicRole.user ∧
      ∀ m, [listening_message].getLast? = some m →
        m.role ≠ GCPVertexAnthropicRole.assistant :=
  prepare_messages_invariants [] [listening_message] (by rfl)

example : Json.parse "\x7b\"location\":\"New York\"\x7d" =
    some (Json.obj [("location", Json.str "New York")]) := by rfl

example : Json.compact (Json.obj [("location", Json.str "New York")]) =
    "\x7b\"location\":\"New York\"\x7d" := by rfl

example : Json.parse "\x7b\"a\":[1,-25,true,null,\x7b\x7d,[]],\"b\":\"x\"\x7d" =
    some (Json.obj
      [("a", Json.arr [Json.num 1, Json.num (-25), Json.bool true, Json.null,
          Json.obj [], Json.arr []]),
       ("b", Json.str "x")]) := by rfl

theorem parseStrBody_cons (c : Char) (rest : List Char) :
    parseStrBody (c :: rest) =
      (if c = '"' then some ([], rest)
       else if c = '\\' then
         match rest with
         | [] => Option.none
         | c2 :: rest2 => (parseStrBody rest2).map (fun p => (c2 :: p.1, p.2))
       else (parseStrBody rest).map (fun p => (c :: p.1, p.2))) := by
  rw [parseStrBody.eq_def]

theorem parseDigits_cons (c : Char) (rest : List Char) (acc : Nat) :
    parseDigits (c :: rest) acc =
      (match digVal? c with
       | some d => parseDigits rest (acc * 10 + d)
       | Option.none => (acc, c :: rest)) := rfl

theorem parseNum_cons (c : Char) (rest : List Char) :
    parseNum (c :: rest) =
      (if (digVal? c).isSome then some (parseDigits (c :: rest) 0) else Option.none) := rfl

theorem parseStrBody_escape (l : List Char) (rest : List Char) :
    parseStrBody (l.flatMap escChar ++ '"' :: rest) = some (l, rest) := by
  induction l with
  | nil =>
    simp only [List.flatMap_nil, List.nil_append]
    rw [parseStrBody_cons, if_pos rfl]
  | cons c l ih =>
    by_cases hq : c = '"'
    · subst hq
      have he : escChar '"' = ['\\', '"'] := by rw [escChar, if_pos rfl]
      rw [List.flatMap_cons, he, List.append_assoc, List.cons_append, List.cons_append,
        parseStrBody_cons, if_neg (by decide), if_pos rfl, List.nil_append]
      show Option.map (fun p => ('"' :: p.1, p.2))
        (parseStrBody (l.flatMap escChar ++ '"' :: rest)) = some ('"' :: l, rest)
      rw [ih]
      rfl
    · by_cases hb : c = '\\'
      · subst hb
        have he : escChar '\\' = ['\\', '\\'] := by
          rw [escChar, if_neg (by decide), if_pos rfl]
        rw [List.flatMap_cons, he, List.append_assoc, List.cons_append, List.cons_append,
          parseStrBody_cons, if_neg (by decide), if_pos rfl, List.nil_append]
        show Option.map (fun p => ('\\' :: p.1, p.2))
          (parseStrBody (l.flatMap escChar ++ '"' :: rest)) = some ('\\' :: l, rest)
        rw [ih]
        rfl
      · have he : escChar c = [c] := by rw [escChar, if_neg hq, if_neg hb]
        rw [List.flatMap_cons, he, List.append_assoc, List.singleton_append,
          parseStrBody_cons, if_neg hq, if_neg hb, ih]
        rfl

theorem digVal?_digitChar : ∀ d : Nat, d < 10 → digVal? (digitChar d) = some d := by decide

theorem natChars_ne_nil (n : Nat) : natChars n ≠ [] := by
  rw [natChars]
  split
  · simp
  · simp

theorem natChars_all_digits (n : Nat) : ∀ c ∈ natChars n, (digVal? c).isSome = true := by
  rw [natChars]
  split
  · next h =>
    intro c hc
    simp only [List.mem_singleton] at hc
    subst hc
    rw [digVal?_digitChar n h]
    rfl
  · next h =>
    intro c hc
    rw [List.mem_append] at hc
    rcases hc with hc | hc
    · exact natChars_all_digits (n / 10) c hc
    · simp only [List.mem_singleton] at hc
      subst hc
      rw [digVal?_digitChar (n % 10) (Nat.mod_lt n (by omega))]
      rfl
decreasing_by
  exact Nat.div_lt_self (by omega) (by omega)

theorem parseDigits_noLead (l : List Char) (acc : Nat) (h : noLeadDigit l = true) :
    parseDigits l acc = (acc, l) := by
  cases l with
  | nil => rfl
  | cons c rest =>
    rw [parseDigits_cons]
    simp only [noLeadDigit, Option.isNone_iff_eq_none] at h
    rw [h]

theorem parseDigits_digit (d : Nat) (hd : d < 10) (rest : List Char) (acc : Nat) :
    parseDigits (digitChar d :: rest) acc = parseDigits rest (acc * 10 + d) := by
  rw [parseDigits_cons, digVal?_digitChar d hd]

theorem parseDigits_natChars (n : Nat) (acc : Nat) (rest : List Char) :
    parseDigits (natChars n ++ rest) acc =
      parseDigits rest (acc * 10 ^ (natChars n).length + n) := by
  rw [natChars]
  split
  · next h =>
    rw [List.singleton_append, parseDigits_digit n h, List.length_singleton, pow_one]
  · next h =>
    rw [List.append_assoc, parseDigits_natChars (n / 10) acc, List.singleton_append,
      parseDigits_digit (n % 10) (Nat.mod_lt n (by omega))]
    have hlen : (natChars (n / 10) ++ [digitChar (n % 10)]).length =
        (natChars (n / 10)).length + 1 := by simp
    rw [hlen]
    congr 1
    rw [pow_succ]
    have h1 : (acc * 10 ^ (natChars (n / 10)).length + n / 10) * 10 + n % 10
        = acc * (10 ^ (natChars (n / 10)).length * 10) + (10 * (n / 10) + n % 10) := by ring
    rw [h1, Nat.div_add_mod]
decreasing_by
  exact Nat.div_lt_self (by omega) (by omega)

theorem parseNum_natChars (n : Nat) (rest : List Char) (h : noLeadDigit rest = true) :
    parseNum (natChars n ++ rest) = some (n, rest) := by
  obtain ⟨c, t, hct⟩ : ∃ c t, natChars n = c :: t := by
    cases hn : natChars n with
    | nil => exact absurd hn (natChars_ne_nil n)
    | cons c t => exact ⟨c, t, rfl⟩
  have hd : (digVal? c).isSome = true :=
    natChars_all_digits n c (by rw [hct]; exact List.mem_cons_self c t)
  rw [hct, List.cons_append, parseNum_cons, if_pos hd, ← List.cons_append, ← hct,
    parseDigits_natChars n 0 rest, parseDigits_noLead rest _ h]
  simp

theorem parseVal_succ (f : Nat) (c : Char) (rest : List Char) :
    parseVal (f + 1) (c :: rest) =
      (if c = 'n' then (stripPfx ['u', 'l', 'l'] rest).map (fun r => (Json.null, r))
       else if c = 't' then (stripPfx ['r', 'u', 'e'] rest).map (fun r => (Json.bool true, r))
       else if c = 'f' then
         (stripPfx ['a', 'l', 's', 'e'] rest).map (fun r => (Json.bool false, r))
       else if c = '"' then
         (parseStrBody rest).map (fun p => (Json.str (String.mk p.1), p.2))
       else if c = '[' then
         match rest with
         | [] => Option.none
         | d :: rest2 =>
           if d = ']' then some (Json.arr [], rest2)
           else
             (parseVal f (d :: rest2)).bind (fun p =>
               (parseArrTail f p.2).map (fun q => (Json.arr (p.1 :: q.1), q.2)))
       else if c = '{' then
         match rest with
         | [] => Option.none
         | d :: rest2 =>
           if d = '}' then some (Json.obj [], rest2)
           else
             (parseMember f (d :: rest2)).bind (fun p =>
               (parseObjTail f p.2).map (fun q => (Json.obj (p.1 :: q.1), q.2)))
       else if c = '-' then (parseNum rest).map (fun p => (Json.num (-(p.1 : Int)), p.2))
       else (parseNum (c :: rest)).map (fun p => (Json.num (p.1 : Int), p.2))) := by
  rw [parseVal.eq_def]

theorem parseArrTail_succ (f : Nat) (c : Char) (rest : List Char) :
    parseArrTail (f + 1) (c :: rest) =
      (if c = ']' then some ([], rest)
       else if c = ',' then
         (parseVal f rest).bind (fun p =>
           (parseArrTail f p.2).map (fun q => (p.1 :: q.1, q.2)))
       else Option.none) := by
  rw [parseArrTail.eq_def]

theorem parseMember_succ (f : Nat) (c : Char) (rest : List Char) :
    parseMember (f + 1) (c :: rest) =
      (if c = '"' then
         (parseStrBody rest).bind (fun p =>
           match p.2 with
           | [] => Option.none
           | c2 :: r2 =>
             if c2 = ':' then
               (parseVal f r2).map (fun q => ((String.mk p.1, q.1), q.2))
             else Option.none)
       else Option.none) := by
  rw [parseMember.eq_def]

theorem parseObjTail_succ (f : Nat) (c : Char) (rest : List Char) :
    parseObjTail (f + 1) (c :: rest) =
      (if c = '}' then some ([], rest)
       else if c = ',' then
         (parseMember f rest).bind (fun p =>
           (parseObjTail f p.2).map (fun q => (p.1 :: q.1, q.2)))
       else Option.none) := by
  rw [parseObjTail.eq_def]

theorem digit_not_special (c : Char) (h : (digVal? c).isSome = true) :
    c ≠ 'n' ∧ c ≠ 't' ∧ c ≠ 'f' ∧ c ≠ '"' ∧ c ≠ '[' ∧ c ≠ '{' ∧ c ≠ '-' ∧
      c ≠ ']' ∧ c ≠ '}' ∧ c ≠ ',' := by
  unfold digVal? at h
  split_ifs at h with h0 h1 h2 h3 h4 h5 h6 h7 h8 h9
  · subst h0; decide
  · subst h1; decide
  · subst h2; decide
  · subst h3; decide
  · subst h4; decide
  · subst h5; decide
  · subst h6; decide
  · subst h7; decide
  · subst h8; decide
  · subst h9; decide
  · simp at h

theorem headKind_not_close (c : Char) (h : headKind c) :
    c ≠ ']' ∧ c ≠ '}' ∧ c ≠ ',' := by
  rcases h with h | h | h | h | h | h | h | h
  · subst h; decide
  · subst h; decide
  · subst h; decide
  · subst h; decide
  · subst h; decide
  · subst h; decide
  · subst h; decide
  · exact ⟨(digit_not_special c h).2.2.2.2.2.2.2.1,
      (digit_not_special c h).2.2.2.2.2.2.2.2.1,
      (digit_not_special c h).2.2.2.2.2.2.2.2.2⟩

theorem compact_head (v : Json) :
    ∃ c t, Json.compactChars v = c :: t ∧ headKind c := by
  cases v with
  | null => exact ⟨'n', ['u', 'l', 'l'], rfl, Or.inl rfl⟩
  | bool b =>
    cases b with
    | true => exact ⟨'t', ['r', 'u', 'e'], rfl, Or.inr (Or.inl rfl)⟩
    | false => exact ⟨'f', ['a', 'l', 's', 'e'], rfl, Or.inr (Or.inr (Or.inl rfl))⟩
  | num i =>
    by_cases hi : i < 0
    · refine ⟨'-', natChars i.natAbs, ?_, ?_⟩
      · rw [Json.compactChars, intChars, if_pos hi]
      · exact Or.inr (Or.inr (Or.inr (Or.inr (Or.inr (Or.inr (Or.inl rfl))))))
    · obtain ⟨c, t, hct⟩ : ∃ c t, natChars i.natAbs = c :: t := by
        cases hn : natChars i.natAbs with
        | nil => exact absurd hn (natChars_ne_nil _)
        | cons c t => exact ⟨c, t, rfl⟩
      refine ⟨c, t, ?_, ?_⟩
      · rw [Json.compactChars, intChars, if_neg hi, hct]
      · refine Or.inr (Or.inr (Or.inr (Or.inr (Or.inr (Or.inr (Or.inr ?_))))))
        exact natChars_all_digits _ c (by rw [hct]; exact List.mem_cons_self c t)
  | str s => exact ⟨'"', s.data.flatMap escChar ++ ['"'], rfl, by unfold headKind; tauto⟩
  | arr xs =>
    cases xs with
    | nil => exact ⟨'[', [']'], rfl, by unfold headKind; tauto⟩
    | cons x xs =>
      exact ⟨'[', Json.compactChars x ++ arrTailChars xs, rfl, by unfold headKind; tauto⟩
  | obj kvs =>
    cases kvs with
    | nil => exact ⟨'{', ['}'], rfl, by unfold headKind; tauto⟩
    | cons kv kvs =>
      exact ⟨'{', memChars kv ++ objTailChars kvs, rfl, by unfold headKind; tauto⟩

theorem arrTail_noLead (xs : List Json) (r : List Char) :
    noLeadDigit (arrTailChars xs ++ r) = true := by
  cases xs with
  | nil => rfl
  | cons y ys => rfl

theorem objTail_noLead (kvs : List (String × Json)) (r : List Char) :
    noLeadDigit (objTailChars kvs ++ r) = true := by
  cases kvs with
  | nil => rfl
  | cons kv kvs => rfl

theorem compactChars_pos (v : Json) : 1 ≤ (Json.compactChars v).length := by
  obtain ⟨c, t, hct, _⟩ := compact_head v
  rw [hct]
  simp

theorem arrTailChars_pos (xs : List Json) : 1 ≤ (arrTailChars xs).length := by
  cases xs with
  | nil => rfl
  | cons y ys => simp [arrTailChars]

theorem objTailChars_pos (kvs : List (String × Json)) : 1 ≤ (objTailChars kvs).length := by
  cases kvs with
  | nil => rfl
  | cons kv kvs => simp [objTailChars]

theorem strChars_len (s : String) : 2 ≤ (strChars s).length := by
  simp [strChars]

theorem parseVal_null_eq (f : Nat) (rest : List Char) :
    parseVal (f + 1) (['n', 'u', 'l', 'l'] ++ rest) = some (Json.null, rest) := by
  rw [List.cons_append, parseVal_succ]
  simp only [Char.reduceEq, reduceIte]
  rfl

theorem parseVal_true_eq (f : Nat) (rest : List Char) :
    parseVal (f + 1) (['t', 'r', 'u', 'e'] ++ rest) = some (Json.bool true, rest) := by
  rw [List.cons_append, parseVal_succ]
  simp only [Char.reduceEq, reduceIte]
  rfl

theorem parseVal_false_eq (f : Nat) (rest : List Char) :
    parseVal (f + 1) (['f', 'a', 'l', 's', 'e'] ++ rest) = some (Json.bool false, rest) := by
  rw [List.cons_append, parseVal_succ]
  simp only [Char.reduceEq, reduceIte]
  rfl

theorem parseVal_str_eq (f : Nat) (rest : List Char) :
    parseVal (f + 1) ('"' :: rest) =
      (parseStrBody rest).map (fun p => (Json.str (String.mk p.1), p.2)) := by
  rw [parseVal_succ]
  simp only [Char.reduceEq, reduceIte]

theorem parseVal_arrnil_eq (f : Nat) (rest : List Char) :
    parseVal (f + 1) ('[' :: ']' :: rest) = some (Json.arr [], rest) := by
  rw [parseVal_succ]
  simp only [Char.reduceEq, reduceIte]

theorem parseVal_arrcons_eq (f : Nat) (d : Char) (rest2 : List Char) (hd : d ≠ ']') :
    parseVal (f + 1) ('[' :: d :: rest2) =
      (parseVal f (d :: rest2)).bind (fun p =>
        (parseArrTail f p.2).map (fun q => (Json.arr (p.1 :: q.1), q.2))) := by
  rw [parseVal_succ]
  simp only [Char.reduceEq, reduceIte]
  rw [if_neg hd]

theorem parseVal_objnil_eq (f : Nat) (rest : List Char) :
    parseVal (f + 1) ('{' :: '}' :: rest) = some (Json.obj [], rest) := by
  rw [parseVal_succ]
  simp only [Char.reduceEq, reduceIte]

theorem parseVal_objcons_eq (f : Nat) (d : Char) (rest2 : List Char) (hd : d ≠ '}') :
    parseVal (f + 1) ('{' :: d :: rest2) =
      (parseMember f (d :: rest2)).bind (fun p =>
        (parseObjTail f p.2).map (fun q => (Json.obj (p.1 :: q.1), q.2))) := by
  rw [parseVal_succ]
  simp only [Char.reduceEq, reduceIte]
  rw [if_neg hd]

theorem parseVal_neg_eq (f : Nat) (rest : List Char) :
    parseVal (f + 1) ('-' :: rest) =
      (parseNum rest).map (fun p => (Json.num (-(p.1 : Int)), p.2)) := by
  rw [parseVal_succ]
  simp only [Char.reduceEq, reduceIte]

theorem parseVal_digit_eq (f : Nat) (c : Char) (rest : List Char)
    (h1 : c ≠ 'n') (h2 : c ≠ 't') (h3 : c ≠ 'f') (h4 : c ≠ '"') (h5 : c ≠ '[')
    (h6 : c ≠ '{') (h7 : c ≠ '-') :
    parseVal (f + 1) (c :: rest) =
      (parseNum (c :: rest)).map (fun p => (Json.num (p.1 : Int), p.2)) := by
  rw [parseVal_succ, if_neg h1, if_neg h2, if_neg h3, if_neg h4, if_neg h5, if_neg h6,
    if_neg h7]

theorem parseArrTail_nil_eq (f : Nat) (rest : List Char) :
    parseArrTail (f + 1) (']' :: rest) = some ([], rest) := by
  rw [parseArrTail_succ]
  simp only [Char.reduceEq, reduceIte]

theorem parseArrTail_cons_eq (f : Nat) (rest : List Char) :
    parseArrTail (f + 1) (',' :: rest) =
      (parseVal f rest).bind (fun p =>
        (parseArrTail f p.2).map (fun q => (p.1 :: q.1, q.2))) := by
  rw [parseArrTail_succ]
  simp only [Char.reduceEq, reduceIte]

theorem parseMember_eq (f : Nat) (rest : List Char) :
    parseMember (f + 1) ('"' :: rest) =
      (parseStrBody rest).bind (fun p =>
        match p.2 with
        | [] => Option.none
        | c2 :: r2 =>
          if c2 = ':' then
            (parseVal f r2).map (fun q => ((String.mk p.1, q.1), q.2))
          else Option.none) := by
  rw [parseMember_succ]
  simp only [Char.reduceEq, reduceIte]

theorem parseObjTail_nil_eq (f : Nat) (rest : List Char) :
    parseObjTail (f + 1) ('}' :: rest) = some ([], rest) := by
  rw [parseObjTail_succ]
  simp only [Char.reduceEq, reduceIte]

theorem parseObjTail_cons_eq (f : Nat) (rest : List Char) :
    parseObjTail (f + 1) (',' :: rest) =
      (parseMember f rest).bind (fun p =>
        (parseObjTail f p.2).map (fun q => (p.1 :: q.1, q.2))) := by
  rw [parseObjTail_succ]
  simp only [Char.reduceEq, reduceIte]

theorem memChars_head (kv : String × Json) :
    ∃ c t, memChars kv = c :: t ∧ headKind c := by
  obtain ⟨k, v⟩ := kv
  refine ⟨'"', (k.data.flatMap escChar ++ ['"']) ++ (':' :: Json.compactChars v), ?_, ?_⟩
  · rw [memChars, strChars, List.cons_append]
  · unfold headKind; tauto

theorem memChars_pos (kv : String × Json) : 1 ≤ (memChars kv).length := by
  obtain ⟨c, t, hct, -⟩ := memChars_head kv
  rw [hct]
  simp

mutual

theorem parseVal_compact : ∀ (v : Json) (f : Nat) (rest : List Char),
    (Json.compactChars v).length ≤ f → noLeadDigit rest = true →
    parseVal f (Json.compactChars v ++ rest) = some (v, rest)
  | .null, f, rest, hf, _ => by
    rw [Json.compactChars] at hf ⊢
    cases f with
    | zero => simp only [nullChars, List.length_cons, List.length_nil] at hf; omega
    | succ f => exact parseVal_null_eq f rest
  | .bool true, f, rest, hf, _ => by
    rw [Json.compactChars] at hf ⊢
    cases f with
    | zero => simp only [trueChars, List.length_cons, List.length_nil] at hf; omega
    | succ f => exact parseVal_true_eq f rest
  | .bool false, f, rest, hf, _ => by
    rw [Json.compactChars] at hf ⊢
    cases f with
    | zero => simp only [falseChars, List.length_cons, List.length_nil] at hf; omega
    | succ f => exact parseVal_false_eq f rest
  | .num i, f, rest, hf, hr => by
    rw [Json.compactChars, intChars] at hf ⊢
    have hpos : 1 ≤ (natChars i.natAbs).length :=
      List.length_pos.mpr (natChars_ne_nil _)
    by_cases hi : i < 0
    · rw [if_pos hi] at hf ⊢
      cases f with
      | zero => simp only [List.length_cons] at hf; omega
      | succ f =>
        rw [List.cons_append, parseVal_neg_eq, parseNum_natChars i.natAbs rest hr]
        have h2 : -((i.natAbs : Int)) = i := by omega
        show some (Json.num (-((i.natAbs : Int))), rest) = some (Json.num i, rest)
        rw [h2]
    · rw [if_neg hi] at hf ⊢
      obtain ⟨c, t, hct⟩ : ∃ c t, natChars i.natAbs = c :: t := by
        cases hn : natChars i.natAbs with
        | nil => exact absurd hn (natChars_ne_nil _)
        | cons c t => exact ⟨c, t, rfl⟩
      have hd : (digVal? c).isSome = true :=
        natChars_all_digits _ c (by rw [hct]; exact List.mem_cons_self c t)
      obtain ⟨h1, h2, h3, h4, h5, h6, h7, -, -, -⟩ := digit_not_special c hd
      cases f with
      | zero => omega
      | succ f =>
        rw [hct, List.cons_append, parseVal_digit_eq f c _ h1 h2 h3 h4 h5 h6 h7,
          ← List.cons_append, ← hct, parseNum_natChars i.natAbs rest hr]
        have h9 : ((i.natAbs : Int)) = i := by omega
        show some (Json.num ((i.natAbs : Int)), rest) = some (Json.num i, rest)
        rw [h9]
  | .str s, f, rest, hf, _ => by
    rw [Json.compactChars] at hf ⊢
    have hlen := strChars_len s
    cases f with
    | zero => omega
    | succ f =>
      rw [strChars, List.cons_append, parseVal_str_eq, List.append_assoc,
        List.singleton_append, parseStrBody_escape]
      rfl
  | .arr [], f, rest, hf, _ => by
    rw [Json.compactChars] at hf ⊢
    cases f with
    | zero => simp only [List.length_cons, List.length_nil] at hf; omega
    | succ f =>
      rw [List.cons_append, List.singleton_append]
      exact parseVal_arrnil_eq f rest
  | .arr (x :: xs), f, rest, hf, hr => by
    rw [Json.compactChars] at hf ⊢
    have hx := compactChars_pos x
    have ht := arrTailChars_pos xs
    simp only [List.length_cons, List.length_append] at hf
    cases f with
    | zero => omega
    | succ f =>
      obtain ⟨c, t, hct, hk⟩ := compact_head x
      obtain ⟨hc1, -, -⟩ := headKind_not_close c hk
      rw [List.cons_append, List.append_assoc, hct, List.cons_append,
        parseVal_arrcons_eq f c _ hc1, ← List.cons_append, ← hct,
        parseVal_compact x f (arrTailChars xs ++ rest) (by omega)
          (arrTail_noLead xs rest),
        Option.some_bind]
      show (parseArrTail f (arrTailChars xs ++ rest)).map
          (fun q => (Json.arr (x :: q.1), q.2)) = some (Json.arr (x :: xs), rest)
      rw [parseArrTail_compact xs f rest (by omega) hr]
      rfl
  | .obj [], f, rest, hf, _ => by
    rw [Json.compactChars] at hf ⊢
    cases f with
    | zero => simp only [List.length_cons, List.length_nil] at hf; omega
    | succ f =>
      rw [List.cons_append, List.singleton_append]
      exact parseVal_objnil_eq f rest
  | .obj (kv :: kvs), f, rest, hf, hr => by
    rw [Json.compactChars] at hf ⊢
    have hm := memChars_pos kv
    have ht := objTailChars_pos kvs
    simp only [List.length_cons, List.length_append] at hf
    cases f with
    | zero => omega
    | succ f =>
      obtain ⟨c, t, hct, hk⟩ := memChars_head kv
      obtain ⟨-, hc2, -⟩ := headKind_not_close c hk
      rw [List.cons_append, List.append_assoc, hct, List.cons_append,
        parseVal_objcons_eq f c _ hc2, ← List.cons_append, ← hct,
        parseMember_compact kv f (objTailChars kvs ++ rest) (by omega)
          (objTail_noLead kvs rest),
        Option.some_bind]
      show (parseObjTail f (objTailChars kvs ++ rest)).map
          (fun q => (Json.obj (kv :: q.1), q.2)) = some (Json.obj (kv :: kvs), rest)
      rw [parseObjTail_compact kvs f rest (by omega) hr]
      rfl

theorem parseArrTail_compact : ∀ (xs : List Json) (f : Nat) (rest : List Char),
    (arrTailChars xs).length ≤ f → noLeadDigit rest = true →
    parseArrTail f (arrTailChars xs ++ rest) = some (xs, rest)
  | [], f, rest, hf, _ => by
    rw [arrTailChars] at hf ⊢
    cases f with
    | zero => simp only [List.length_cons, List.length_nil] at hf; omega
    | succ f =>
      rw [List.singleton_append]
      exact parseArrTail_nil_eq f rest
  | y :: ys, f, rest, hf, hr => by
    rw [arrTailChars] at hf ⊢
    have hy := compactChars_pos y
    have ht := arrTailChars_pos ys
    simp only [List.length_cons, List.length_append] at hf
    cases f with
    | zero => omega
    | succ f =>
      rw [List.cons_append, parseArrTail_cons_eq, List.append_assoc,
        parseVal_compact y f (arrTailChars ys ++ rest) (by omega)
          (arrTail_noLead ys rest),
        Option.some_bind]
      show (parseArrTail f (arrTailChars ys ++ rest)).map
          (fun q => (y :: q.1, q.2)) = some (y :: ys, rest)
      rw [parseArrTail_compact ys f rest (by omega) hr]
      rfl

theorem parseMember_compact : ∀ (kv : String × Json) (f : Nat) (rest : List Char),
    (memChars kv).length ≤ f → noLeadDigit rest = true →
    parseMember f (memChars kv ++ rest) = some (kv, rest)
  | (k, v), f, rest, hf, hr => by
    rw [memChars] at hf ⊢
    have hs := strChars_len k
    have hv := compactChars_pos v
    simp only [List.length_append, List.length_cons] at hf
    cases f with
    | zero => omega
    | succ f =>
      rw [strChars, List.cons_append, List.cons_append, parseMember_eq,
        List.append_assoc, List.append_assoc, List.singleton_append,
        parseStrBody_escape, Option.some_bind]
      show (if (':' : Char) = ':' then
          (parseVal f (Json.compactChars v ++ rest)).map
            (fun q => ((String.mk k.data, q.1), q.2))
        else Option.none) = some ((k, v), rest)
      rw [if_pos rfl, parseVal_compact v f rest (by omega) hr]
      rfl

theorem parseObjTail_compact : ∀ (kvs : List (String × Json)) (f : Nat) (rest : List Char),
    (objTailChars kvs).length ≤ f → noLeadDigit rest = true →
    parseObjTail f (objTailChars kvs ++ rest) = some (kvs, rest)
  | [], f, rest, hf, _ => by
    rw [objTailChars] at hf ⊢
    cases f with
    | zero => simp only [List.length_cons, List.length_nil] at hf; omega
    | succ f =>
      rw [List.singleton_append]
      exact parseObjTail_nil_eq f rest
  | kv :: kvs, f, rest, hf, hr => by
    rw [objTailChars] at hf ⊢
    have hm := memChars_pos kv
    have ht := objTailChars_pos kvs
    simp only [List.length_cons, List.length_append] at hf
    cases f with
    | zero => omega
    | succ f =>
      rw [List.cons_append, parseObjTail_cons_eq, List.append_assoc,
        parseMember_compact kv f (objTailChars kvs ++ rest) (by omega)
          (objTail_noLead kvs rest),
        Option.some_bind]
      show (parseObjTail f (objTailChars kvs ++ rest)).map
          (fun q => (kv :: q.1, q.2)) = some (kv :: kvs, rest)
      rw [parseObjTail_compact kvs f rest (by omega) hr]
      rfl

end

/-- The serde round trip: parsing the compact serialization of any JSON
value recovers the value. -/
theorem Json.parse_compact (v : Json) : Json.parse (Json.compact v) = some v := by
  have h := parseVal_compact v ((Json.compactChars v).length + 1) [] (by omega) rfl
  rw [List.append_nil] at h
  show (match parseVal ((Json.compactChars v).length + 1) (Json.compactChars v) with
    | some (v, []) => some v
    | _ => Option.none) = some v
  rw [h]

theorem stream_anthropic_nil (iid lat : Nat) (tid tname : Option String) :
    stream_anthropic iid lat tid tname [] = [] := by
  rw [stream_anthropic]

theorem stream_anthropic_transport_error (iid lat : Nat) (tid tname : Option String)
    (e : String) (rest : List (Except String Event)) :
    stream_anthropic iid lat tid tname (Except.error e :: rest) =
      Except.error (Error.anthropicServer e) ::
        stream_anthropic iid lat tid tname rest := by
  rw [stream_anthropic]

theorem stream_anthropic_opened (iid lat : Nat) (tid tname : Option String)
    (rest : List (Except String Event)) :
    stream_anthropic iid lat tid tname (Except.ok Event.opened :: rest) =
      stream_anthropic iid lat tid tname rest := by
  rw [stream_anthropic]

theorem stream_anthropic_message (iid lat : Nat) (tid tname : Option String)
    (data : String) (rest : List (Except String Event)) :
    stream_anthropic iid lat tid tname (Except.ok (Event.message data) :: rest) =
      (if isStopResult (parseStreamData data) then []
       else
         match (parseStreamData data).bind (fun msg =>
             anthropic_to_tensorzero_stream_message msg iid lat tid tname) with
         | Except.ok (Option.none, tid2, tname2) =>
           stream_anthropic iid lat tid2 tname2 rest
         | Except.ok (some chunk, tid2, tname2) =>
           Except.ok chunk :: stream_anthropic iid lat tid2 tname2 rest
         | Except.error e =>
           Except.error e :: stream_anthropic iid lat tid tname rest) := by
  rw [stream_anthropic]

/-- C4: a successfully parsed `MessageStop` event terminates the output
sequence: the decoded stream of `pre ++ [stop] ++ post` equals that of
`pre ++ [stop]`, for every `post` — no event after the stop is read or
contributes any chunk or error item. -/
theorem stream_anthropic_messageStop_terminates (iid lat : Nat)
    (tid tname : Option String) (pre post : List (Except String Event)) (d : String)
    (hstop : parseStreamData d = Except.ok GCPVertexAnthropicStreamMessage.messageStop) :
    stream_anthropic iid lat tid tname (pre ++ Except.ok (Event.message d) :: post) =
      stream_anthropic iid lat tid tname (pre ++ [Except.ok (Event.message d)]) := by
  induction pre generalizing tid tname with
  | nil =>
    simp only [List.nil_append]
    rw [stream_anthropic_message, stream_anthropic_message, hstop]
    rfl
  | cons ev rest ih =>
    simp only [List.cons_append]
    cases ev with
    | error e =>
      rw [stream_anthropic_transport_error, stream_anthropic_transport_error, ih]
    | ok ev' =>
      cases ev' with
      | opened =>
        rw [stream_anthropic_opened, stream_anthropic_opened]
        exact ih tid tname
      | message data =>
        rw [stream_anthropic_message, stream_anthropic_message]
        by_cases hs : isStopResult (parseStreamData data) = true
        · rw [if_pos hs, if_pos hs]
        · rw [if_neg hs, if_neg hs]
          cases hb : (parseStreamData data).bind (fun msg =>
              anthropic_to_tensorzero_stream_message msg iid lat tid tname) with
          | error e => simp only [ih]
          | ok r =>
            obtain ⟨opt, tid2, tname2⟩ := r
            cases opt with
            | none => simp only [ih]
            | some chunk => simp only [ih]

/-- Witness for C4 at a concrete input: a text delta after the stop event
contributes nothing. -/
theorem stream_anthropic_messageStop_terminates_witness :
    stream_anthropic 7 0 Option.none Option.none
        [Except.ok (Event.message "\x7b\"type\":\"message_stop\"\x7d"),
         Except.ok (Event.message
           "\x7b\"type\":\"content_block_delta\",\"delta\":\x7b\"type\":\"text_delta\",\"text\":\"x\"\x7d,\"index\":0\x7d")] =
      stream_anthropic 7 0 Option.none Option.none
        [Except.ok (Event.message "\x7b\"type\":\"message_stop\"\x7d")] :=
  stream_anthropic_messageStop_terminates 7 0 Option.none Option.none []
    [Except.ok (Event.message
      "\x7b\"type\":\"content_block_delta\",\"delta\":\x7b\"type\":\"text_delta\",\"text\":\"x\"\x7d,\"index\":0\x7d")]
    "\x7b\"type\":\"message_stop\"\x7d" (by rfl)

/-- C9: a protocol-level `Error` stream event yields an error item carrying
the error payload's compact form, but does not terminate consumption: the
events after it are still read and decoded. -/
theorem stream_anthropic_error_event_continues (iid lat : Nat)
    (tid tname : Option String) (d : String) (v : Json)
    (rest : List (Except String Event))
    (hp : parseStreamData d = Except.ok (GCPVertexAnthropicStreamMessage.error v)) :
    stream_anthropic iid lat tid tname (Except.ok (Event.message d) :: rest) =
      Except.error (Error.anthropicServer (Json.compact v)) ::
        stream_anthropic iid lat tid tname rest := by
  rw [stream_anthropic_message, hp]
  rfl

/-- Witness for C9 at a concrete input: after the error event, a text delta
still yields its chunk. -/
theorem stream_anthropic_error_event_continues_witness :
    stream_anthropic 7 0 Option.none Option.none
        [Except.ok (Event.message
           "\x7b\"type\":\"error\",\"error\":\x7b\"message\":\"Test error\"\x7d\x7d"),
         Except.ok (Event.message
           "\x7b\"type\":\"content_block_delta\",\"delta\":\x7b\"type\":\"text_delta\",\"text\":\"x\"\x7d,\"index\":0\x7d")] =
      Except.error (Error.anthropicServer "\x7b\"message\":\"Test error\"\x7d") ::
        stream_anthropic 7 0 Option.none Option.none
          [Except.ok (Event.message
            "\x7b\"type\":\"content_block_delta\",\"delta\":\x7b\"type\":\"text_delta\",\"text\":\"x\"\x7d,\"index\":0\x7d")] :=
  stream_anthropic_error_event_continues 7 0 Option.none Option.none
    "\x7b\"type\":\"error\",\"error\":\x7b\"message\":\"Test error\"\x7d\x7d"
    (Json.obj [("message", Json.str "Test error")]) _ (by rfl)

/-- C8: when the decoded stream produces zero items (no chunk and no error)
before a first chunk is obtained, `infer_stream` fails with the dedicated
server error instead of returning an empty-but-valid stream. -/
theorem infer_stream_empty_is_error (iid lat : Nat)
    (events : List (Except String Event))
    (h : stream_anthropic iid lat Option.none Option.none events = []) :
    infer_stream iid lat events =
      Except.error (Error.anthropicServer "Stream ended before first chunk") := by
  rw [infer_stream, h]

/-- Witness for C8: an event source that ends immediately. -/
theorem infer_stream_empty_is_error_witness :
    infer_stream 7 0 [] =
      Except.error (Error.anthropicServer "Stream ended before first chunk") :=
  infer_stream_empty_is_error 7 0 [] (by rfl)

/-- C6: the error classifier maps statuses 400, 401, 413 and 429 to a
caller-attributable client error carrying the provider message and the
status code, and every other status (in particular 403, 404 and 500) to a
provider-attributable server error carrying the message. -/
theorem handle_anthropic_error_classification (response_code : Nat)
    (response_body : GCPVertexAnthropicErrorBody) :
    ((response_code = 400 ∨ response_code = 401 ∨ response_code = 413 ∨
        response_code = 429) →
      handle_anthropic_error response_code response_body =
        Except.error (Error.anthropicClient response_body.message response_code)) ∧
    (¬(response_code = 400 ∨ response_code = 401 ∨ response_code = 413 ∨
        response_code = 429) →
      handle_anthropic_error response_code response_body =
        Except.error (Error.anthropicServer response_body.message)) := by
  constructor
  · intro h
    rw [handle_anthropic_error, if_pos (by tauto)]
  · intro h
    rw [handle_anthropic_error, if_neg (by tauto)]

/-- Witness for C6: status 400 classifies as a client error and status 403
as a server error, for the same error body. -/
theorem handle_anthropic_error_classification_witness :
    handle_anthropic_error 400 ⟨"invalid_request_error", "test_message"⟩ =
      Except.error (Error.anthropicClient "test_message" 400) ∧
    handle_anthropic_error 403 ⟨"forbidden", "test_message"⟩ =
      Except.error (Error.anthropicServer "test_message") :=
  ⟨(handle_anthropic_error_classification 400
      ⟨"invalid_request_error", "test_message"⟩).1 (Or.inl rfl),
   (handle_anthropic_error_classification 403
      ⟨"forbidden", "test_message"⟩).2 (by decide)⟩

/-- C7: tool-call argument round trip.  Converting a neutral ToolCall
whose argument string is the compact serialization of a JSON object `O`
produces a wire ToolUse with input `O`, and decoding a wire ToolUse with
input `O` produces a neutral ToolCall whose arguments are the compact
serialization of `O`. -/
theorem tool_arguments_roundtrip (O : Json) (hobj : O.isObj = true)
    (id name : String) :
    GCPVertexAnthropicMessageContent.try_from
        (ContentBlock.toolCall ⟨id, name, Json.compact O⟩) =
      Except.ok (GCPVertexAnthropicMessageContent.toolUse id name O) ∧
    ContentBlock.try_from (GCPVertexAnthropicContentBlock.toolUse id name O) =
      Except.ok (ContentBlock.toolCall ⟨id, name, Json.compact O⟩) := by
  constructor
  · simp only [GCPVertexAnthropicMessageContent.try_from, Json.parse_compact,
      hobj, reduceIte]
  · rfl

/-- Witness for C7 at the concrete object from the repository's tests. -/
theorem tool_arguments_roundtrip_witness :
    (Json.obj [("location", Json.str "New York")]).isObj = true ∧
    (GCPVertexAnthropicMessageContent.try_from
        (ContentBlock.toolCall ⟨"tool_call_1", "get_temperature",
          Json.compact (Json.obj [("location", Json.str "New York")])⟩) =
      Except.ok (GCPVertexAnthropicMessageContent.toolUse "tool_call_1"
        "get_temperature" (Json.obj [("location", Json.str "New York")])) ∧
    ContentBlock.try_from (GCPVertexAnthropicContentBlock.toolUse "tool_call_1"
        "get_temperature" (Json.obj [("location", Json.str "New York")])) =
      Except.ok (ContentBlock.toolCall ⟨"tool_call_1", "get_temperature",
        Json.compact (Json.obj [("location", Json.str "New York")])⟩)) :=
  ⟨rfl, tool_arguments_roundtrip (Json.obj [("location", Json.str "New York")]) rfl
    "tool_call_1" "get_temperature"⟩

/-- C3: streaming tool-call identity.  (1) a ToolUse `ContentBlockStart`
overwrites both identity slots with the tool's id and name and yields a
ToolCall chunk with empty arguments; (2) an `InputJsonDelta` delta with
both slots set yields a ToolCall chunk whose id and raw name are read from
the slots, leaving them unchanged; (3) with either slot unset such a delta
fails with a server error; (4) a successful conversion of any event leaves
the slots unchanged unless the event is a ToolUse `ContentBlockStart` —
so the id and name of every ToolCall delta chunk are those of the most
recent ToolUse start. -/
theorem stream_tool_identity :
    (∀ iid lat tid tname id name input index,
      anthropic_to_tensorzero_stream_message
          (GCPVertexAnthropicStreamMessage.contentBlockStart
            (GCPVertexAnthropicMessageBlock.toolUse id name input) index)
          iid lat tid tname =
        Except.ok (some ⟨iid, [ContentBlockChunk.toolCall ⟨id, name, ""⟩], Option.none,
            Json.compact (streamMessageToJson
              (GCPVertexAnthropicStreamMessage.contentBlockStart
                (GCPVertexAnthropicMessageBlock.toolUse id name input) index)),
            lat⟩,
          some id, some name)) ∧
    (∀ iid lat (tid tname : String) pj index,
      anthropic_to_tensorzero_stream_message
          (GCPVertexAnthropicStreamMessage.contentBlockDelta
            (GCPVertexAnthropicMessageBlock.inputJsonDelta pj) index)
          iid lat (some tid) (some tname) =
        Except.ok (some ⟨iid, [ContentBlockChunk.toolCall ⟨tid, tname, pj⟩], Option.none,
            Json.compact (streamMessageToJson
              (GCPVertexAnthropicStreamMessage.contentBlockDelta
                (GCPVertexAnthropicMessageBlock.inputJsonDelta pj) index)),
            lat⟩,
          some tid, some tname)) ∧
    (∀ iid lat (tid tname : Option String) pj index,
      tid = Option.none ∨ tname = Option.none →
      ∃ m, anthropic_to_tensorzero_stream_message
          (GCPVertexAnthropicStreamMessage.contentBlockDelta
            (GCPVertexAnthropicMessageBlock.inputJsonDelta pj) index)
          iid lat tid tname = Except.error (Error.anthropicServer m)) ∧
    (∀ msg iid lat tid tname out,
      anthropic_to_tensorzero_stream_message msg iid lat tid tname = Except.ok out →
      (out.2.1 = tid ∧ out.2.2 = tname) ∨
        ∃ id name input index,
          msg = GCPVertexAnthropicStreamMessage.contentBlockStart
            (GCPVertexAnthropicMessageBlock.toolUse id name input) index) := by
  refine ⟨fun iid lat tid tname id name input index => rfl,
    fun iid lat tid tname pj index => rfl, ?_, ?_⟩
  · intro iid lat tid tname pj index h
    cases tname with
    | none => exact ⟨_, rfl⟩
    | some n =>
      cases tid with
      | none => exact ⟨_, rfl⟩
      | some t =>
        rcases h with h | h
        · exact absurd h (by simp)
        · exact absurd h (by simp)
  · intro msg iid lat tid tname out h
    cases msg with
    | contentBlockDelta delta index =>
      cases delta with
      | text t => exact Except.noConfusion h
      | textDelta t =>
        injection h with h'
        subst h'
        exact Or.inl ⟨rfl, rfl⟩
      | toolUse id name input => exact Except.noConfusion h
      | inputJsonDelta pj =>
        cases tname with
        | none => exact Except.noConfusion h
        | some n =>
          cases tid with
          | none => exact Except.noConfusion h
          | some t =>
            injection h with h'
            subst h'
            exact Or.inl ⟨rfl, rfl⟩
    | contentBlockStart cb index =>
      cases cb with
      | text t =>
        injection h with h'
        subst h'
        exact Or.inl ⟨rfl, rfl⟩
      | textDelta t => exact Except.noConfusion h
      | toolUse id name input => exact Or.inr ⟨id, name, input, index, rfl⟩
      | inputJsonDelta pj => exact Except.noConfusion h
    | contentBlockStop index =>
      injection h with h'
      subst h'
      exact Or.inl ⟨rfl, rfl⟩
    | error e => exact Except.noConfusion h
    | messageDelta d u =>
      injection h with h'
      subst h'
      exact Or.inl ⟨rfl, rfl⟩
    | messageStart m =>
      simp only [anthropic_to_tensorzero_stream_message] at h
      cases hg : m.get? "usage" with
      | none =>
        rw [hg] at h
        injection h with h'
        subst h'
        exact Or.inl ⟨rfl, rfl⟩
      | some u =>
        rw [hg] at h
        injection h with h'
        subst h'
        exact Or.inl ⟨rfl, rfl⟩
    | messageStop =>
      injection h with h'
      subst h'
      exact Or.inl ⟨rfl, rfl⟩
    | ping =>
      injection h with h'
      subst h'
      exact Or.inl ⟨rfl, rfl⟩

/-- Witness for C3: a delta with no prior ToolUse start fails with a server
error, and a successful Ping conversion leaves concrete slots unchanged. -/
theorem stream_tool_identity_witness :
    (∃ m, anthropic_to_tensorzero_stream_message
        (GCPVertexAnthropicStreamMessage.contentBlockDelta
          (GCPVertexAnthropicMessageBlock.inputJsonDelta "aaaa: bbbbb") 0)
        7 100 Option.none Option.none = Except.error (Error.anthropicServer m)) ∧
    ((((Option.none : Option ProviderInferenceResponseChunk), some "t1", some "n1").2.1
          = some "t1" ∧
        ((Option.none : Option ProviderInferenceResponseChunk),
          some "t1", some "n1").2.2 = some "n1") ∨
      ∃ id name input index,
        GCPVertexAnthropicStreamMessage.ping =
          GCPVertexAnthropicStreamMessage.contentBlockStart
            (GCPVertexAnthropicMessageBlock.toolUse id name input) index) :=
  ⟨stream_tool_identity.2.2.1 7 100 Option.none Option.none "aaaa: bbbbb" 0 (Or.inl rfl),
   stream_tool_identity.2.2.2 GCPVertexAnthropicStreamMessage.ping 7 100
     (some "t1") (some "n1") (Option.none, some "t1", some "n1") rfl⟩

/-- The `tools` and `tool_choice` fields of every successfully built
request body, as functions of the neutral request. -/
theorem requestBody_new_fields (request : ModelInferenceRequest)
    (body : GCPVertexAnthropicRequestBody)
    (hok : GCPVertexAnthropicRequestBody.new request = Except.ok body) :
    body.tools = request.tool_config.map
        (fun c => c.tools_available.map GCPVertexAnthropicTool.fromConfig) ∧
    body.tool_choice =
      ((Option.filter (fun t => !t.isEmpty)
          (request.tool_config.map
            (fun c => c.tools_available.map GCPVertexAnthropicTool.fromConfig))).bind
        (fun _ => request.tool_config)).bind
        (fun c => (GCPVertexAnthropicToolChoice.try_from c.tool_choice).toOption) := by
  rw [GCPVertexAnthropicRequestBody.new] at hok
  by_cases hemp : request.messages.isEmpty
  · rw [if_pos hemp] at hok
    exact absurd hok (by simp)
  · rw [if_neg hemp] at hok
    simp only [Bind.bind, Except.bind] at hok
    cases h1 : request.messages.mapM GCPVertexAnthropicMessage.try_from with
    | error e => simp only [h1] at hok; exact Except.noConfusion hok
    | ok rm =>
      simp only [h1] at hok
      cases h2 : prepare_messages rm with
      | error e => simp only [h2] at hok; exact Except.noConfusion hok
      | ok msgs =>
        simp only [h2, Except.ok.injEq] at hok
        subst hok
        exact ⟨rfl, rfl⟩

/-- C2 counterexample: for a request with `ToolChoice::None` and a
non-empty tool set, request-body construction does not fail: it silently
produces a wire body whose `tool_choice` is absent (the conversion error
is discarded by `.ok()`), with the tools still present. -/
theorem requestBody_new_toolChoiceNone_counterexample :
    (GCPVertexAnthropicRequestBody.new toolChoiceNoneRequest).map
        (fun b => (b.tool_choice, b.tools)) =
      Except.ok (Option.none,
        some [⟨"get_temperature", some "Get the current temperature", Json.obj []⟩]) := by
  rfl

/-- C2 amended: with `ToolChoice::None` and any tool set, a successfully
built body carries no `tool_choice` (the invalid-tool-configuration error
is raised by the tool-choice conversion itself but swallowed by body
construction). -/
theorem requestBody_new_toolChoiceNone_amended (request : ModelInferenceRequest)
    (c : ToolCallConfig) (body : GCPVertexAnthropicRequestBody)
    (hc : request.tool_config = some c) (hnone : c.tool_choice = ToolChoice.none)
    (hok : GCPVertexAnthropicRequestBody.new request = Except.ok body) :
    body.tool_choice = Option.none ∧
    GCPVertexAnthropicToolChoice.try_from c.tool_choice =
      Except.error (Error.invalidTool
        "Tool choice is None. Anthropic does not support tool choice None.") := by
  obtain ⟨-, htc⟩ := requestBody_new_fields request body hok
  constructor
  · rw [htc]
    cases hf : Option.filter (fun t => !t.isEmpty)
        (request.tool_config.map
          (fun c => c.tools_available.map GCPVertexAnthropicTool.fromConfig)) with
    | none => rfl
    | some ts =>
      rw [Option.some_bind, hc, Option.some_bind, hnone]
      rfl
  · rw [hnone]
    rfl

/-- Witness for C2 amended at the concrete counterexample request. -/
theorem requestBody_new_toolChoiceNone_amended_witness :
    ∃ body, GCPVertexAnthropicRequestBody.new toolChoiceNoneRequest = Except.ok body ∧
      (body.tool_choice = Option.none ∧
        GCPVertexAnthropicToolChoice.try_from
            (⟨[⟨"get_temperature", "Get the current temperature", Json.obj []⟩],
              ToolChoice.none⟩ : ToolCallConfig).tool_choice =
          Except.error (Error.invalidTool
            "Tool choice is None. Anthropic does not support tool choice None.")) := by
  refine ⟨⟨ANTHROPIC_API_VERSION,
    [⟨GCPVertexAnthropicRole.user, [GCPVertexAnthropicMessageContent.text "test_user"]⟩],
    4096, some false, Option.none, Option.none, Option.none,
    some [⟨"get_temperature", some "Get the current temperature", Json.obj []⟩]⟩,
    rfl, ?_⟩
  exact requestBody_new_toolChoiceNone_amended toolChoiceNoneRequest _ _ rfl rfl rfl

/-- C5 counterexample: with a tool configuration whose tool list is empty,
the wire body's `tools` field is present (as an empty array) although the
neutral tool set is empty; only `tool_choice` is absent. -/
theorem requestBody_new_emptyTools_counterexample :
    (GCPVertexAnthropicRequestBody.new emptyToolsRequest).map
        (fun b => (b.tools, b.tool_choice)) =
      Except.ok (some [], Option.none) := by
  rfl

/-- C5 amended: `tools` is present iff the request has a tool configuration
— an empty tool list still yields a present, empty `tools` array — and
`tool_choice` is present only if `tools` is present and non-empty. -/
theorem requestBody_new_tools_amended (request : ModelInferenceRequest)
    (body : GCPVertexAnthropicRequestBody)
    (hok : GCPVertexAnthropicRequestBody.new request = Except.ok body) :
    (body.tools = Option.none ↔ request.tool_config = Option.none) ∧
    (∀ tc, body.tool_choice = some tc →
      ∃ ts, body.tools = some ts ∧ ts ≠ []) := by
  obtain ⟨htools, htc⟩ := requestBody_new_fields request body hok
  constructor
  · rw [htools]
    exact Option.map_eq_none'
  · intro tc h
    rw [htc] at h
    cases hf : Option.filter (fun t => !t.isEmpty)
        (request.tool_config.map
          (fun c => c.tools_available.map GCPVertexAnthropicTool.fromConfig)) with
    | none => rw [hf] at h; exact absurd h (by simp)
    | some ts =>
      rw [Option.filter_eq_some] at hf
      obtain ⟨hmem, hne⟩ := hf
      refine ⟨ts, ?_, ?_⟩
      · rw [htools]
        exact Option.mem_def.mp hmem
      · simpa using hne

/-- Witness for C5 amended at the concrete empty-tools request. -/
theorem requestBody_new_tools_amended_witness :
    ∃ body, GCPVertexAnthropicRequestBody.new emptyToolsRequest = Except.ok body ∧
      ((body.tools = Option.none ↔ emptyToolsRequest.tool_config = Option.none) ∧
        ∀ tc, body.tool_choice = some tc → ∃ ts, body.tools = some ts ∧ ts ≠ []) := by
  refine ⟨⟨ANTHROPIC_API_VERSION,
    [⟨GCPVertexAnthropicRole.user, [GCPVertexAnthropicMessageContent.text "test_user"]⟩],
    4096, some false, Option.none, Option.none, Option.none, some []⟩, rfl, ?_⟩
  exact requestBody_new_tools_amended emptyToolsRequest _ rfl
